import Mathlib

/-!
Verification of the Markdown-to-HTML converter in `markdown2html.py`.

The Python source is shallowly embedded: strings are Lean `String`s (whose
underlying `List Char` we manipulate), file lines are `List String`, the
`while` loops of the source become fuel-indexed structural recursions (the
fuel passed at each call site is an upper bound on the number of loop
iterations actually possible from that state, so the embedding computes the
same result as the loop whenever the loop terminates; `Option` is used for
the one loop, the top-level dispatcher, that can actually diverge).
Regular expressions of the source are embedded as explicit scanners with
Python `re` semantics (non-greedy shortest match, `.` not matching a
newline, left-to-right non-overlapping global substitution).
-/

/-- The ASCII whitespace characters recognised by Python's `str.strip()`
and by the `\s` of the source's regular expression patterns (the inputs
considered here are ASCII, so the extra Unicode whitespace accepted by
Python is not modelled). -/
def isPyWs (c : Char) : Bool :=
  c = ' ' || c = '\t' || c = '\n' || c = '\r' || c = '\x0b' || c = '\x0c'

/-- `str.strip()` on a character list: drop whitespace at both ends. -/
def pyStripL (l : List Char) : List Char :=
  ((l.dropWhile isPyWs).reverse.dropWhile isPyWs).reverse

/-- Python's `line.strip()`. -/
def pyStrip (s : String) : String := String.mk (pyStripL s.data)

/-- Boolean `List.isPrefixOf`, written out so proofs can unfold it. -/
def isPre : List Char → List Char → Bool
  | [], _ => true
  | _ :: _, [] => false
  | a :: xs, b :: ys => a = b && isPre xs ys

/-- Python's `s.startswith(p)`. -/
def swith (s p : String) : Bool := isPre p.data s.data

/-- After the leading digits of `re.match(r'^\d+\.\s', line)`: accept more
digits, then a literal `.` followed by one whitespace character. -/
def ordRest : List Char → Bool
  | c :: t =>
    if c.isDigit then ordRest t
    else c = '.' && (match t with | w :: _ => isPyWs w | [] => false)
  | [] => false

/-- `re.match(r'^\d+\.\s', line)` as a Boolean: at least one digit, then
`.`, then a whitespace character, anchored at the start of the line. -/
def ordMatchL : List Char → Bool
  | c :: t => c.isDigit && ordRest (c :: t)
  | [] => false

/-- String form of the ordered-list pattern test. -/
def ordMatch (s : String) : Bool := ordMatchL s.data

/-- The `while line.startswith("#")` counter of `parse_heading`: the number
of consecutive `#` characters at the start of the line. -/
def countHashes : List Char → Nat
  | c :: t => if c = '#' then countHashes t + 1 else 0
  | [] => 0

/-- `parse_heading` of the source: count leading `#` markers; if the level
is between 1 and 6, strip the remainder and wrap it in a heading tag
(without any inline translation); otherwise return `None`. -/
def parse_heading (line : String) : Option String :=
  let level := countHashes line.data
  let rest := String.mk (line.data.drop level)
  if 1 ≤ level ∧ level ≤ 6 then
    some ("<h" ++ toString level ++ ">" ++ pyStrip rest ++ "</h" ++ toString level ++ ">")
  else none

/-- Lazy-dot close scanner for a two-character closing delimiter, with the
semantics of `(.*?)` followed by the delimiter in Python `re`: return the
least `k` such that the two characters at offset `k` are the closing
delimiter and no newline occurs among the first `k` characters; `none` when
there is no such `k`. -/
def closeAt (c1 c2 : Char) : List Char → Option Nat
  | a :: b :: t =>
    if a = c1 ∧ b = c2 then some 0
    else if a = '\n' then none
    else (closeAt c1 c2 (b :: t)).map (· + 1)
  | _ => none

/-- One `re.sub` pass for a pattern `o₁o₂(.*?)c₁c₂`: scan left to right;
at a position starting with the opening delimiter whose closer is found,
emit `f` of the enclosed text and resume after the closing delimiter
(non-overlapping global substitution); otherwise copy one character.
The fuel is an upper bound on the scan steps; `s.length` suffices. -/
def subPairFuel (o1 o2 c1 c2 : Char) (f : List Char → List Char) : Nat → List Char → List Char
  | 0, s => s
  | fuel + 1, s =>
    match s with
    | a :: b :: t =>
      if a = o1 ∧ b = o2 then
        match closeAt c1 c2 t with
        | some k => f (t.take k) ++ subPairFuel o1 o2 c1 c2 f fuel (t.drop (k + 2))
        | none => a :: subPairFuel o1 o2 c1 c2 f fuel (b :: t)
      else a :: subPairFuel o1 o2 c1 c2 f fuel (b :: t)
    | s9 => s9

/-- `re.sub` for a pattern `o₁o₂(.*?)c₁c₂` over a whole character list. -/
def subPair2 (o1 o2 c1 c2 : Char) (f : List Char → List Char) (s : List Char) : List Char :=
  subPairFuel o1 o2 c1 c2 f s.length s

/-- Does the two-character sequence `c₁c₂` occur (at adjacent positions)
anywhere in the list? -/
def adjPair (c1 c2 : Char) : List Char → Bool
  | a :: b :: t => (a = c1 && b = c2) || adjPair c1 c2 (b :: t)
  | _ => false

/-- Does the pattern `o₁o₂(.*?)c₁c₂` match anywhere in the list, i.e. does
the corresponding `re.sub` find at least one delimiter pair? -/
def hasDelimPair (o1 o2 c1 c2 : Char) : List Char → Bool
  | a :: b :: t =>
    ((a = o1 && b = o2) && (closeAt c1 c2 t).isSome) || hasDelimPair o1 o2 c1 c2 (b :: t)
  | _ => false

/-! ### MD5, the `hashlib.md5(...).hexdigest()` of the source -/

/-- Bytes of the UTF-8 encoding of one character (Python `str.encode()`). -/
def utf8Char (c : Char) : List Nat :=
  let n := c.toNat
  if n < 128 then [n]
  else if n < 2048 then [192 + n / 64, 128 + n % 64]
  else if n < 65536 then [224 + n / 4096, 128 + (n / 64) % 64, 128 + n % 64]
  else [240 + n / 262144, 128 + (n / 4096) % 64, 128 + (n / 64) % 64, 128 + n % 64]

/-- UTF-8 encoding of a character list as a byte (as `Nat`) list. -/
def utf8Encode (l : List Char) : List Nat := (l.map utf8Char).flatten

/-- Truncation to 32 bits. -/
def mask32 (x : Nat) : Nat := x % 4294967296

/-- Bitwise complement on 32 bits. -/
def not32 (x : Nat) : Nat := 4294967295 - mask32 x

/-- Rotate a 32-bit value left by `n` bits. -/
def rotl32 (x n : Nat) : Nat :=
  mask32 ((mask32 x <<< n) ||| (mask32 x >>> (32 - n)))

/-- The 64 MD5 sine-derived constants. -/
def md5K : List Nat :=
  [3614090360, 3905402710, 606105819, 3250441966, 4118548399, 1200080426, 2821735955, 4249261313,
   1770035416, 2336552879, 4294925233, 2304563134, 1804603682, 4254626195, 2792965006, 1236535329,
   4129170786, 3225465664, 643717713, 3921069994, 3593408605, 38016083, 3634488961, 3889429448,
   568446438, 3275163606, 4107603335, 1163531501, 2850285829, 4243563512, 1735328473, 2368359562,
   4294588738, 2272392833, 1839030562, 4259657740, 2763975236, 1272893353, 4139469664, 3200236656,
   681279174, 3936430074, 3572445317, 76029189, 3654602809, 3873151461, 530742520, 3299628645,
   4096336452, 1126891415, 2878612391, 4237533241, 1700485571, 2399980690, 4293915773, 2240044497,
   1873313359, 4264355552, 2734768916, 1309151649, 4149444226, 3174756917, 718787259, 3951481745]

/-- The 64 MD5 per-round left-rotation amounts. -/
def md5S : List Nat :=
  [7, 12, 17, 22, 7, 12, 17, 22, 7, 12, 17, 22, 7, 12, 17, 22,
   5, 9, 14, 20, 5, 9, 14, 20, 5, 9, 14, 20, 5, 9, 14, 20,
   4, 11, 16, 23, 4, 11, 16, 23, 4, 11, 16, 23, 4, 11, 16, 23,
   6, 10, 15, 21, 6, 10, 15, 21, 6, 10, 15, 21, 6, 10, 15, 21]

/-- The MD5 round mixing function for round `i`. -/
def md5F (i b c d : Nat) : Nat :=
  if i < 16 then (b &&& c) ||| (not32 b &&& d)
  else if i < 32 then (d &&& b) ||| (not32 d &&& c)
  else if i < 48 then b ^^^ c ^^^ d
  else c ^^^ (b ||| not32 d)

/-- The MD5 message-word index for round `i`. -/
def md5G (i : Nat) : Nat :=
  if i < 16 then i
  else if i < 32 then (5 * i + 1) % 16
  else if i < 48 then (3 * i + 5) % 16
  else (7 * i) % 16

/-- One MD5 round on the register quadruple. -/
def md5Step (M : List Nat) (st : Nat × Nat × Nat × Nat) (i : Nat) : Nat × Nat × Nat × Nat :=
  match st with
  | (a, b, c, d) =>
    let x := mask32 (a + md5F i b c d + md5K.getD i 0 + M.getD (md5G i) 0)
    (d, mask32 (b + rotl32 x (md5S.getD i 0)), b, c)

/-- `n` little-endian bytes of `x`. -/
def leBytes : Nat → Nat → List Nat
  | 0, _ => []
  | n + 1, x => (x % 256) :: leBytes n (x / 256)

/-- MD5 padding: `0x80`, zeros to 56 mod 64, then the 64-bit little-endian
bit length of the message. -/
def md5Pad (msg : List Nat) : List Nat :=
  let len := msg.length
  msg ++ [128] ++ List.replicate ((56 + 64 - (len + 1) % 64) % 64) 0
      ++ leBytes 8 ((len * 8) % 18446744073709551616)

/-- Split a byte list into 64-byte chunks (fuel-indexed; `l.length` is
enough fuel since every step removes at least one byte). -/
def chunksFuel : Nat → List Nat → List (List Nat)
  | 0, _ => []
  | fuel + 1, l => if l.isEmpty then [] else l.take 64 :: chunksFuel fuel (l.drop 64)

/-- Split a (padded) byte list into 64-byte chunks. -/
def chunks64 (l : List Nat) : List (List Nat) := chunksFuel l.length l

/-- Decode a 64-byte chunk into 16 little-endian 32-bit words. -/
def toWords : List Nat → List Nat
  | b0 :: b1 :: b2 :: b3 :: rest =>
    (b0 + 256 * b1 + 65536 * b2 + 16777216 * b3) :: toWords rest
  | _ => []

/-- The MD5 initial register values. -/
def md5Init : Nat × Nat × Nat × Nat := (1732584193, 4023233417, 2562383102, 271733878)

/-- Process one 64-byte chunk: 64 rounds, then add into the registers. -/
def md5Chunk (st : Nat × Nat × Nat × Nat) (chunk : List Nat) : Nat × Nat × Nat × Nat :=
  match st, (List.range 64).foldl (md5Step (toWords chunk)) st with
  | (a, b, c, d), (a2, b2, c2, d2) =>
    (mask32 (a + a2), mask32 (b + b2), mask32 (c + c2), mask32 (d + d2))

/-- The 16 digest bytes of the MD5 of a byte list. -/
def md5Bytes (msg : List Nat) : List Nat :=
  match (chunks64 (md5Pad msg)).foldl md5Chunk md5Init with
  | (a, b, c, d) => leBytes 4 a ++ leBytes 4 b ++ leBytes 4 c ++ leBytes 4 d

/-- One lowercase hexadecimal digit. -/
def hexDigit (n : Nat) : Char :=
  if n < 10 then Char.ofNat (48 + n) else Char.ofNat (87 + n)

/-- Lowercase hexadecimal digest string of the MD5 of a byte list:
`hashlib.md5(bytes).hexdigest()`. -/
def md5hex (msg : List Nat) : String :=
  String.mk (((md5Bytes msg).map (fun b => [hexDigit (b / 16), hexDigit (b % 16)])).flatten)

/-! ### The four inline substitutions of `process_text` -/

/-- Replacement `<b>\1</b>` of the bold substitution. -/
def bWrap (x : List Char) : List Char := "<b>".data ++ x ++ "</b>".data

/-- Replacement `<em>\1</em>` of the emphasis substitution. -/
def emWrap (x : List Char) : List Char := "<em>".data ++ x ++ "</em>".data

/-- Replacement of the digest substitution: the MD5 hex digest of the
UTF-8 bytes of the enclosed text. -/
def md5Wrap (x : List Char) : List Char := (md5hex (utf8Encode x)).data

/-- Characters kept by the strip substitution: everything except `c`/`C`. -/
def stripKeep (c : Char) : Bool := !(c == 'c' || c == 'C')

/-- Replacement of the strip substitution: `.replace('c','').replace('C','')`. -/
def stripWrap (x : List Char) : List Char := x.filter stripKeep

/-- `re.sub(r'\*\*(.*?)\*\*', r'<b>\1</b>', text)`. -/
def boldSub (s : String) : String := String.mk (subPair2 '*' '*' '*' '*' bWrap s.data)

/-- `re.sub(r'__(.*?)__', r'<em>\1</em>', text)`. -/
def emSub (s : String) : String := String.mk (subPair2 '_' '_' '_' '_' emWrap s.data)

/-- `re.sub(r'\[\[(.*?)\]\]', md5-digest, text)`. -/
def md5Sub (s : String) : String := String.mk (subPair2 '[' '[' ']' ']' md5Wrap s.data)

/-- `re.sub(r'\(\((.*?)\)\)', remove c and C, text)`. -/
def stripSub (s : String) : String := String.mk (subPair2 '(' '(' ')' ')' stripWrap s.data)

/-- `process_text` of the source: the four substitutions applied in order
(bold, emphasis, digest, strip), each to the result of the previous one. -/
def process_text (text : String) : String := stripSub (md5Sub (emSub (boldSub text)))

/-! ### List blocks (`parse_list`) -/

/-- The loop condition of `parse_list`:
`lines[index].startswith(("- ", "* ")) or re.match(r'^\d+\.\s', lines[index])`. -/
def listMarker (s : String) : Bool :=
  swith s ("- ") || swith s ("* ") || ordMatch s

/-- Everything after the first `.` of a line: `line.split('.', 1)[1]`
(only evaluated by the source on lines matching the ordered pattern, which
guarantees the `.` exists; on a dot-free list this returns `[]`). -/
def afterDot : List Char → List Char
  | [] => []
  | c :: t => if c = '.' then t else afterDot t

/-- String form of `line.split('.', 1)[1]`. -/
def afterDotS (s : String) : String := String.mk (afterDot s.data)

/-- Python `line[n:]`. -/
def strDrop (n : Nat) (s : String) : String := String.mk (s.data.drop n)

/-- Does a line qualify for an `<li>` of the given kind in the body of
`parse_list`: `list_type == "ul" and line.startswith("- ")`, or
`list_type == "ol" and re.match(r'^\d+\.\s', line)`. -/
def qualFor (t : String) (s : String) : Bool :=
  if t = "ul" then swith s ("- ")
  else if t = "ol" then ordMatch s
  else false

/-- The `<li>` emitted by `parse_list` for a qualifying line: the item text
(after `- ` for unordered, after the first `.` for ordered), stripped,
inline-translated, and wrapped. -/
def liHtml (t : String) (s : String) : String :=
  if t = "ul" then "<li>" ++ process_text (pyStrip (strDrop 2 s)) ++ "</li>"
  else "<li>" ++ process_text (pyStrip (afterDotS s)) ++ "</li>"

/-- The `while` loop of `parse_list`, fuel-indexed: starting at `index`,
while the line matches any list marker, emit the `<li>` when the line
qualifies for the requested kind, and advance; return the collected `<li>`
lines and the final index.  Fuel `lines.length - index` is enough, since
every iteration increments the index and the loop stops at the end. -/
def parseListFuel : Nat → List String → String → Nat → List String × Nat
  | 0, _, _, index => ([], index)
  | fuel + 1, lines, t, index =>
    if h : index < lines.length then
      if listMarker (lines.get ⟨index, h⟩) then
        let r := parseListFuel fuel lines t (index + 1)
        (if qualFor t (lines.get ⟨index, h⟩) then liHtml t (lines.get ⟨index, h⟩) :: r.1
         else r.1, r.2)
      else ([], index)
    else ([], index)

/-- `parse_list` of the source: the opening tag, the `<li>` lines collected
by the loop, the closing tag, and the index after the consumed run. -/
def parse_list (lines : List String) (index : Nat) (list_type : String) : List String × Nat :=
  let r := parseListFuel (lines.length - index) lines list_type index
  (("<" ++ list_type ++ ">") :: r.1 ++ ["</" ++ list_type ++ ">"], r.2)

/-! ### Paragraphs (`parse_paragraphs`) -/

/-- The paragraph emitted for a group of (stripped) lines:
`'<p>\n' + process_text('\n'.join(paragraph)) + '\n</p>'`. -/
def paraHtml (p : List String) : String :=
  "<p>\n" ++ process_text (String.intercalate ("\n") p) ++ "\n</p>"

/-- The loop of `parse_paragraphs`: accumulate stripped non-blank lines
into the current paragraph; a blank line flushes a non-empty paragraph;
the final paragraph, if non-empty, is flushed after the loop. -/
def paraLoop : List String → List String → List String → List String
  | [], paragraph, html =>
    if paragraph ≠ [] then html ++ [paraHtml paragraph] else html
  | l :: rest, paragraph, html =>
    if pyStrip l ≠ "" then paraLoop rest (paragraph ++ [pyStrip l]) html
    else if paragraph ≠ [] then paraLoop rest [] (html ++ [paraHtml paragraph])
    else paraLoop rest paragraph html

/-- `parse_paragraphs` of the source: the emitted `<p>` blocks and the
final index, which is always the number of lines given. -/
def parse_paragraphs (lines : List String) : List String × Nat :=
  (paraLoop lines [] [], lines.length)

/-! ### The top-level dispatcher loop of `convert_markdown_to_html` -/

/-- The `while index < len(lines)` loop of `convert_markdown_to_html`,
fuel-indexed because the source loop does not always terminate (see the
non-advancing `parse_list` call exhibited below).  The result is the list
of strings passed to `html_file.write`, in order, or `none` when `fuel`
loop steps were not enough (in particular, a diverging run yields `none`
for every fuel). -/
def convertLoop : Nat → List String → Nat → Option (List String)
  | 0, _, _ => none
  | fuel + 1, lines, index =>
    if h : index < lines.length then
      if swith (pyStrip (lines.get ⟨index, h⟩)) ("#") then
        match parse_heading (pyStrip (lines.get ⟨index, h⟩)) with
        | some hl => (convertLoop fuel lines (index + 1)).map (fun out => (hl ++ "\n") :: out)
        | none => convertLoop fuel lines (index + 1)
      else if swith (pyStrip (lines.get ⟨index, h⟩)) ("- ") then
        (convertLoop fuel lines (parse_list lines index ("ul")).2).map
          (fun out => (String.intercalate ("\n") (parse_list lines index ("ul")).1 ++ "\n") :: out)
      else if ordMatch (pyStrip (lines.get ⟨index, h⟩)) then
        (convertLoop fuel lines (parse_list lines index ("ol")).2).map
          (fun out => (String.intercalate ("\n") (parse_list lines index ("ol")).1 ++ "\n") :: out)
      else if pyStrip (lines.get ⟨index, h⟩) = "" then
        convertLoop fuel lines (index + 1)
      else
        some [String.intercalate ("\n") (parse_paragraphs (lines.drop index)).1 ++ "\n"]
    else some []

/-! ### The `__main__` block -/

/-- Outcome of the argument and existence checks of the `__main__` block:
a usage error, a missing-input error, or proceeding to the conversion
(which is the only outcome that opens — creates or truncates — the output
file). -/
inductive MainOutcome where
| usage : MainOutcome
| missing (input : String) : MainOutcome
| converts (input output9 : String) : MainOutcome

/-- The `__main__` block of the source: `sys.argv` (program name included)
is checked for length `< 3` first, then the input path for existence
(`os.path.exists`, modelled by membership in the list of existing files);
extra arguments beyond `sys.argv[2]` are ignored. -/
def mainDispatch (argv : List String) (existing : List String) : MainOutcome :=
  match argv with
  | _ :: inp :: outP :: _ =>
    if inp ∈ existing then MainOutcome.converts inp outP else MainOutcome.missing inp
  | _ => MainOutcome.usage

/-- The process exit status for each outcome (the conversion, when it
completes, exits 0). -/
def exitCodeOf : MainOutcome → Nat
  | MainOutcome.usage => 1
  | MainOutcome.missing _ => 1
  | MainOutcome.converts _ _ => 0

/-- The lines printed to the error stream for each outcome. -/
def stderrOf : MainOutcome → List String
  | MainOutcome.usage => ["Usage: ./markdown2html.py README.md README.html"]
  | MainOutcome.missing i => ["Missing " ++ i]
  | MainOutcome.converts _ _ => []

/-- Whether the outcome opens (creates or truncates) the output file. -/
def opensOutput : MainOutcome → Bool
  | MainOutcome.converts _ _ => true
  | _ => false

/-! ### Definitions following the spec's words, for comparison -/

/-- A non-blank line (its strip is non-empty). -/
def nonBlank (s : String) : Bool := !(pyStrip s == "")

/-- Modelled from the spec: the paragraph grouping it describes — lines
split into maximal runs of consecutive non-blank lines, blank lines
separating and never belonging to any group, each kept line stripped. -/
def paragraphGroupsSpec : List String → List (List String)
  | [] => []
  | l :: rest =>
    if pyStrip l = "" then paragraphGroupsSpec rest
    else (pyStrip l :: (rest.takeWhile nonBlank).map pyStrip) ::
         paragraphGroupsSpec (rest.dropWhile nonBlank)
termination_by l => l.length
decreasing_by
  · simp only [List.length_cons]; omega
  · have h9 := (List.dropWhile_sublist (l := rest) nonBlank).length_le
    simp only [List.length_cons]; omega

/-- The `<li>` lines a list block of kind `t` emits for a run of
marker lines: one per line qualifying for kind `t` itself. -/
def liItems (t : String) (run : List String) : List String :=
  (run.filter (qualFor t)).map (liHtml t)

/-! ## Lemmas -/

/-- The output accumulator of the paragraph loop passes through untouched. -/
theorem paraLoop_append (ls : List String) : ∀ para html,
    paraLoop ls para html = html ++ paraLoop ls para [] := by
  induction ls with
  | nil =>
    intro para html
    by_cases h : para = [] <;> simp [paraLoop, h]
  | cons l rest ih =>
    intro para html
    by_cases h1 : pyStrip l = ""
    · by_cases h2 : para = []
      · simp only [paraLoop, h1, ne_eq, not_true_eq_false, if_false, h2, if_neg]
        exact ih [] html
      · simp only [paraLoop, h1, ne_eq, not_true_eq_false, if_false, h2, if_true, ite_not]
        rw [ih [] (html ++ [paraHtml para]), ih [] ([] ++ [paraHtml para])]
        simp [List.append_assoc]
    · simp only [paraLoop, h1, ne_eq, not_false_eq_true, if_true]
      exact ih (para ++ [pyStrip l]) html

/-- The paragraph loop computes exactly the spec-described grouping, with
the current pending paragraph (if any) absorbing the leading non-blank
run. -/
theorem paraLoop_spec (ls : List String) : ∀ para,
    paraLoop ls para [] =
      (if para = [] then paragraphGroupsSpec ls
       else (para ++ (ls.takeWhile nonBlank).map pyStrip) ::
            paragraphGroupsSpec (ls.dropWhile nonBlank)).map paraHtml := by
  induction ls with
  | nil =>
    intro para
    by_cases h : para = [] <;> simp [paraLoop, paragraphGroupsSpec, h]
  | cons l rest ih =>
    intro para
    by_cases h1 : pyStrip l = ""
    · have hnb : nonBlank l = false := by simp [nonBlank, h1]
      by_cases h2 : para = []
      · simp only [paraLoop, h1, ne_eq, not_true_eq_false, if_false, h2, if_neg, if_true]
        rw [ih []]
        simp [paragraphGroupsSpec, h1, h2]
      · simp only [paraLoop, h1, ne_eq, not_true_eq_false, if_false, h2, ite_not]
        rw [paraLoop_append, ih []]
        simp [paragraphGroupsSpec, h1, h2, List.takeWhile_cons, List.dropWhile_cons, hnb]
    · have hnb : nonBlank l = true := by simp [nonBlank, h1]
      simp only [paraLoop, h1, ne_eq, not_false_eq_true, if_true]
      rw [ih (para ++ [pyStrip l])]
      by_cases h2 : para = []
      · simp [paragraphGroupsSpec, h1, h2, List.takeWhile_cons, List.dropWhile_cons, hnb]
      · simp [h2, List.takeWhile_cons, List.dropWhile_cons, hnb, List.append_assoc]

/-- C7: the paragraph handler groups lines into paragraphs separated by
blank lines, joins the (stripped) lines of a paragraph with a newline,
translates, and wraps each group in a `<p>` block; a trailing paragraph is
emitted; the spec's worked example holds verbatim. -/
theorem c7_paragraph_contract : ∀ lines : List String,
    parse_paragraphs lines = ((paragraphGroupsSpec lines).map paraHtml, lines.length)
    ∧ parse_paragraphs (["line1", "line2", "", "line3"]) =
        (["<p>\nline1\nline2\n</p>", "<p>\nline3\n</p>"], 4) := by
  intro lines
  constructor
  · unfold parse_paragraphs
    rw [paraLoop_spec]
    simp
  · decide

/-- C8: when the invocation carries both paths but the input path is not an
existing file, the program reports `Missing {input}` on the error stream,
exits with status 1, and never opens the output file. -/
theorem c8_missing_input : ∀ (p inp outP : String) (rest existing : List String),
    inp ∉ existing →
    mainDispatch (p :: inp :: outP :: rest) existing = MainOutcome.missing inp
    ∧ exitCodeOf (MainOutcome.missing inp) = 1
    ∧ stderrOf (MainOutcome.missing inp) = ["Missing " ++ inp]
    ∧ opensOutput (MainOutcome.missing inp) = false := by
  intro p inp outP rest existing h
  refine ⟨?_, rfl, rfl, rfl⟩
  simp [mainDispatch, h]

/-- Witness for C8 at a concrete invocation. -/
theorem c8_missing_input_witness :
    mainDispatch (["./markdown2html.py", "in.md", "out.html"]) [] = MainOutcome.missing ("in.md")
    ∧ exitCodeOf (MainOutcome.missing ("in.md")) = 1
    ∧ stderrOf (MainOutcome.missing ("in.md")) = ["Missing " ++ "in.md"]
    ∧ opensOutput (MainOutcome.missing ("in.md")) = false :=
  c8_missing_input ("./markdown2html.py") ("in.md") ("out.html") [] [] (by simp)

/-- C9 fails as stated: an invocation with three positional arguments (four
`sys.argv` entries) is not a usage error — the extra argument is ignored
and the program proceeds to convert, printing nothing to the error stream
and exiting 0 once conversion completes. -/
theorem c9_counterexample :
    mainDispatch (["./markdown2html.py", "in.md", "out.html", "extra"]) (["in.md"])
      = MainOutcome.converts ("in.md") ("out.html")
    ∧ stderrOf (MainOutcome.converts ("in.md") ("out.html")) = []
    ∧ exitCodeOf (MainOutcome.converts ("in.md") ("out.html")) = 0 := by
  refine ⟨?_, rfl, rfl⟩
  simp [mainDispatch]

/-- C9 amended: an invocation with fewer than two positional arguments
(`len(sys.argv) < 3`) is a usage error: usage line on the error stream,
exit status 1, and the filesystem untouched; invocations with more
positional arguments are not rejected. -/
theorem c9_usage_error : ∀ (argv existing : List String), argv.length < 3 →
    mainDispatch argv existing = MainOutcome.usage
    ∧ exitCodeOf MainOutcome.usage = 1
    ∧ stderrOf MainOutcome.usage = ["Usage: ./markdown2html.py README.md README.html"]
    ∧ opensOutput MainOutcome.usage = false := by
  intro argv existing h
  refine ⟨?_, rfl, rfl, rfl⟩
  match argv with
  | [] => rfl
  | [a] => rfl
  | [a, b] => rfl
  | a :: b :: c :: t => simp [List.length_cons] at h; omega

/-- Witness for C9's amended statement at a concrete invocation. -/
theorem c9_usage_error_witness :
    mainDispatch ([] : List String) ([] : List String) = MainOutcome.usage
    ∧ exitCodeOf MainOutcome.usage = 1
    ∧ stderrOf MainOutcome.usage = ["Usage: ./markdown2html.py README.md README.html"]
    ∧ opensOutput MainOutcome.usage = false :=
  c9_usage_error [] [] (by decide)

/-- C3 fails on the code: on the one-line file `"  - a"` (an unordered list
item with leading whitespace) the dispatcher classifies the stripped line
as an unordered list, but `parse_list` tests the raw line, consumes
nothing, and returns the dispatch index unchanged, so the main loop never
terminates: for every fuel the loop is still running. -/
theorem c3_list_nontermination :
    (∀ fuel, convertLoop fuel (["  - a"]) 0 = none)
    ∧ (parse_list (["  - a"]) 0 ("ul")).2 = 0
    ∧ swith (pyStrip ("  - a")) ("- ") = true := by
  refine ⟨?_, by decide, by decide⟩
  intro fuel
  induction fuel with
  | zero => rfl
  | succ n ih =>
    have step : convertLoop (n + 1) (["  - a"]) 0 =
        (convertLoop n (["  - a"]) (parse_list (["  - a"]) 0 ("ul")).2).map
          (fun out => (String.intercalate ("\n") (parse_list (["  - a"]) 0 ("ul")).1 ++ "\n") :: out) := rfl
    rw [step]
    have h2 : (parse_list (["  - a"]) 0 ("ul")).2 = 0 := by decide
    rw [h2, ih]
    rfl

/-- The `parse_list` loop consumes exactly the maximal run of lines
matching any list marker and emits one `<li>` per line qualifying for the
requested kind. -/
theorem parseListFuel_spec (lines : List String) (t : String) : ∀ (fuel index : Nat),
    lines.length - index = fuel →
    parseListFuel fuel lines t index =
      (liItems t ((lines.drop index).takeWhile listMarker),
       index + ((lines.drop index).takeWhile listMarker).length) := by
  intro fuel
  induction fuel with
  | zero =>
    intro index h
    have hge : lines.length ≤ index := by omega
    rw [List.drop_eq_nil_iff.2 hge]
    simp [parseListFuel, liItems]
  | succ n ih =>
    intro index h
    have hlt : index < lines.length := by omega
    have hdrop : lines.drop index = lines[index] :: lines.drop (index + 1) :=
      List.drop_eq_getElem_cons hlt
    rw [hdrop, List.takeWhile_cons]
    by_cases hm : listMarker lines[index] = true
    · rw [if_pos hm]
      simp only [parseListFuel, hlt, dif_pos, List.get_eq_getElem, hm, if_pos]
      rw [ih (index + 1) (by omega)]
      by_cases hq : qualFor t lines[index] = true
      · simp only [hq, if_pos, liItems, List.filter_cons, List.map_cons, List.length_cons]
        simp only [Prod.mk.injEq]
        exact ⟨trivial, by omega⟩
      · simp only [Bool.not_eq_true] at hq
        simp only [hq, Bool.false_eq_true, if_neg, not_false_eq_true, liItems,
          List.filter_cons, List.length_cons]
        simp only [Prod.mk.injEq]
        exact ⟨trivial, by omega⟩
    · simp only [Bool.not_eq_true] at hm
      rw [hm]
      simp only [Bool.false_eq_true, if_neg, not_false_eq_true]
      simp [parseListFuel, hlt, List.get_eq_getElem, hm, liItems]

/-- C2 fails as stated: on `["- a", "1. b"]` with kind `ul`, the line
`"1. b"` does not qualify for the unordered kind, yet the handler consumes
it (returning index 2, not 1) while emitting no `<li>` for it. -/
theorem c2_counterexample :
    (parse_list (["- a", "1. b"]) 0 ("ul")).2 = 2
    ∧ (parse_list (["- a", "1. b"]) 0 ("ul")).1 = ["<ul>", "<li>a</li>", "</ul>"]
    ∧ (2 : Nat) ≠ 1 :=
  ⟨by decide, by decide, by decide⟩

/-- C2 amended: the list handler consumes the maximal run of consecutive
lines matching ANY list marker (leading `"- "`, leading `"* "`, or digits
then `.` then whitespace), emits the opening tag, one
`<li>{inline-translated item text}</li>` per consumed line qualifying for
the REQUESTED kind (unordered: leading `"- "`, text after the first two
characters, trimmed; ordered: the digit pattern, text after the first `.`,
trimmed), then the closing tag, and returns the first index whose line
matches no marker; a blank or marker-free line terminates the block
without being consumed; a consumed line of the other marker shape
produces no `<li>`. -/
theorem c2_list_block_amended : ∀ (lines : List String) (index : Nat) (t : String),
    parse_list lines index t =
      (("<" ++ t ++ ">") :: liItems t ((lines.drop index).takeWhile listMarker)
         ++ ["</" ++ t ++ ">"],
       index + ((lines.drop index).takeWhile listMarker).length) := by
  intro lines index t
  unfold parse_list
  rw [parseListFuel_spec lines t (lines.length - index) index rfl]

/-- The leading-`#` counter on a block of `n` markers followed by a
non-marker remainder is exactly `n`. -/
theorem countHashes_append_replicate (n : Nat) (rest : List Char) (hr : rest.head? ≠ some '#') :
    countHashes (List.replicate n '#' ++ rest) = n := by
  induction n with
  | zero =>
    simp only [List.replicate, List.nil_append]
    match rest, hr with
    | [], _ => rfl
    | c :: t, hr =>
      have hc : ¬ (c = '#') := by simp at hr; exact hr
      simp [countHashes, hc]
  | succ m ih => simp [List.replicate_succ, countHashes, ih]

/-- `parse_heading` on a line of exactly `n` leading `#` markers: the
heading tag for levels 1–6, `None` above 6. -/
theorem parse_heading_spec (n : Nat) (rest line : String)
    (hline : line = String.mk (List.replicate n '#' ++ rest.data))
    (hhead : rest.data.head? ≠ some '#') :
    (1 ≤ n → n ≤ 6 →
       parse_heading line =
         some ("<h" ++ toString n ++ ">" ++ pyStrip rest ++ "</h" ++ toString n ++ ">"))
    ∧ (6 < n → parse_heading line = none) := by
  have hdata : line.data = List.replicate n '#' ++ rest.data := by rw [hline]
  have hcount : countHashes line.data = n := by
    rw [hdata]; exact countHashes_append_replicate n rest.data hhead
  have hdrop : line.data.drop n = rest.data := by
    have hdl := List.drop_left (List.replicate n '#') rest.data
    rw [List.length_replicate] at hdl
    rw [hdata]
    exact hdl
  constructor
  · intro h1 h6
    simp only [parse_heading]
    rw [hcount, hdrop, if_pos ⟨h1, h6⟩]
  · intro h7
    simp only [parse_heading]
    rw [hcount, if_neg (by omega)]

/-- C4: for a line of `n` leading `#` markers (no following space
required), levels 1–6 produce `<h{n}>{stripped remainder}</h{n}>`, and a
level above 6 produces `None`, upon which the dispatcher writes nothing
for that line and moves on (it is not treated as a paragraph). -/
theorem c4_heading_contract : ∀ (n : Nat) (rest line : String),
    line = String.mk (List.replicate n '#' ++ rest.data) →
    rest.data.head? ≠ some '#' →
    ((1 ≤ n → n ≤ 6 →
        parse_heading line =
          some ("<h" ++ toString n ++ ">" ++ pyStrip rest ++ "</h" ++ toString n ++ ">"))
     ∧ (6 < n → parse_heading line = none))
    ∧ ∀ (fuel : Nat) (lines : List String) (i : Nat) (h : i < lines.length),
        pyStrip (lines.get ⟨i, h⟩) = line → 6 < n →
        convertLoop (fuel + 1) lines i = convertLoop fuel lines (i + 1) := by
  intro n rest line hline hhead
  have hdata : line.data = List.replicate n '#' ++ rest.data := by rw [hline]
  refine ⟨parse_heading_spec n rest line hline hhead, ?_⟩
  intro fuel lines i h hstrip hn
  have hsw : swith line ("#") = true := by
    obtain ⟨m, rfl⟩ : ∃ m, n = m + 1 := ⟨n - 1, by omega⟩
    rw [show swith line ("#") = isPre ("#").data line.data from rfl, hdata,
        List.replicate_succ]
    simp [isPre]
  have hnone : parse_heading line = none := (parse_heading_spec n rest line hline hhead).2 hn
  simp only [convertLoop]
  rw [dif_pos h, hstrip, hsw]
  simp only [if_true]
  rw [hnone]

/-- Witness for C4: `"###x"` (no space after markers) is a level-3
heading, `"#######x"` (level 7) yields nothing and the dispatcher steps
over it. -/
theorem c4_heading_contract_witness :
    parse_heading ("###x") = some ("<h3>x</h3>")
    ∧ parse_heading ("#######x") = none
    ∧ convertLoop 2 (["#######x"]) 0 = convertLoop 1 (["#######x"]) 1 := by
  refine ⟨?_, ?_, ?_⟩
  · exact ((c4_heading_contract 3 ("x") ("###x") (by decide) (by decide)).1.1
      (by decide) (by decide)).trans (by decide)
  · exact (c4_heading_contract 7 ("x") ("#######x") (by decide) (by decide)).1.2 (by decide)
  · exact (c4_heading_contract 7 ("x") ("#######x") (by decide) (by decide)).2
      1 (["#######x"]) 0 (by decide) (by decide) (by decide)

/-- C1: as soon as the dispatcher reaches a line that is non-blank after
trimming, does not start with `#` or `- `, and does not match the
ordered-list pattern, the whole remainder of the input is handed to the
paragraph handler, the loop stops, and everything written from that point
is a `<p>` block — headings or list markers in later lines are never
re-recognised. -/
theorem c1_terminal_paragraph_mode : ∀ (fuel : Nat) (lines : List String) (i : Nat)
    (h : i < lines.length),
    pyStrip (lines.get ⟨i, h⟩) ≠ "" →
    swith (pyStrip (lines.get ⟨i, h⟩)) ("#") = false →
    swith (pyStrip (lines.get ⟨i, h⟩)) ("- ") = false →
    ordMatch (pyStrip (lines.get ⟨i, h⟩)) = false →
    convertLoop (fuel + 1) lines i =
      some [String.intercalate ("\n") (parse_paragraphs (lines.drop i)).1 ++ "\n"]
    ∧ ∀ s ∈ (parse_paragraphs (lines.drop i)).1, ∃ t9, s = "<p>\n" ++ t9 ++ "\n</p>" := by
  intro fuel lines i h h1 h2 h3 h4
  simp only [List.get_eq_getElem] at h1 h2 h3 h4
  constructor
  · simp only [convertLoop]
    rw [dif_pos h]
    simp [h1, h2, h3, h4]
  · intro s hs
    have hp : (parse_paragraphs (lines.drop i)).1
        = (paragraphGroupsSpec (lines.drop i)).map paraHtml := by
      unfold parse_paragraphs
      rw [paraLoop_spec]
      simp
    rw [hp] at hs
    obtain ⟨g, hg, rfl⟩ := List.mem_map.1 hs
    exact ⟨process_text (String.intercalate ("\n") g), rfl⟩

/-- Witness for C1 on a document whose second line looks like a heading:
it is consumed as paragraph text. -/
theorem c1_terminal_paragraph_mode_witness :
    convertLoop 1 (["hello", "# hi"]) 0 =
      some [String.intercalate ("\n") (parse_paragraphs ((["hello", "# hi"]).drop 0)).1 ++ "\n"]
    ∧ ∀ s ∈ (parse_paragraphs ((["hello", "# hi"]).drop 0)).1,
        ∃ t9, s = "<p>\n" ++ t9 ++ "\n</p>" :=
  c1_terminal_paragraph_mode 0 (["hello", "# hi"]) 0 (by decide) (by decide) (by decide)
    (by decide) (by decide)

/-- C6 fails as stated: heading text is NOT inline-translated — the line
`"# **x**"` is emitted as `<h1>**x**</h1>`, not `<h1><b>x</b></h1>`. -/
theorem c6_counterexample :
    convertLoop 2 (["# **x**"]) 0 = some ["<h1>**x**</h1>\n"]
    ∧ ("<h1>**x**</h1>\n" : String) ≠ "<h1><b>x</b></h1>\n" :=
  ⟨by decide, by decide⟩

/-- C6 amended: the inline-span translator is applied to list item text
and paragraph text, but heading text is embedded verbatim (stripped only,
never translated). -/
theorem c6_inline_coverage_amended :
    (∀ (n : Nat) (rest line : String),
        line = String.mk (List.replicate n '#' ++ rest.data) →
        rest.data.head? ≠ some '#' → 1 ≤ n → n ≤ 6 →
        parse_heading line =
          some ("<h" ++ toString n ++ ">" ++ pyStrip rest ++ "</h" ++ toString n ++ ">"))
    ∧ convertLoop 2 (["- **x**"]) 0 = some ["<ul>\n<li><b>x</b></li>\n</ul>\n"]
    ∧ convertLoop 1 (["**x**"]) 0 = some ["<p>\n<b>x</b>\n</p>\n"] := by
  refine ⟨?_, by decide, by decide⟩
  intro n rest line hl hh h1 h6
  exact (parse_heading_spec n rest line hl hh).1 h1 h6

/-- Witness for C6's amended statement: a concrete heading embeds its text
verbatim. -/
theorem c6_inline_coverage_amended_witness :
    parse_heading ("## hi") = some ("<h2>hi</h2>") :=
  (c6_inline_coverage_amended.1 2 (" hi") ("## hi") (by decide) (by decide) (by decide)
    (by decide)).trans (by decide)

/-- An adjacent pair absent from a list is absent from its tail. -/
theorem adjPair_tail (c1 c2 x : Char) (l : List Char)
    (h : adjPair c1 c2 (x :: l) = false) : adjPair c1 c2 l = false := by
  cases l with
  | nil => rfl
  | cons b t =>
    simp only [adjPair, Bool.or_eq_false_iff] at h
    exact h.2

/-- The close scanner on `X ++ close ++ r` finds exactly the boundary when
`X` is newline-free and the closing pair occurs nowhere earlier. -/
theorem closeAt_exact (c1 c2 : Char) (r : List Char) : ∀ (X : List Char),
    '\n' ∉ X → adjPair c1 c2 (X ++ [c1]) = false →
    closeAt c1 c2 (X ++ c1 :: c2 :: r) = some X.length := by
  intro X
  induction X with
  | nil =>
    intro _ _
    simp [closeAt]
  | cons x X' ih =>
    intro hnl hadj
    simp only [List.mem_cons, not_or] at hnl
    have hx : ¬ x = '\n' := fun hh => hnl.1 hh.symm
    cases X' with
    | nil =>
      have ht : ¬ (x = c1 ∧ c1 = c2) := by
        intro hh
        simp [adjPair, hh.1, hh.2] at hadj
      simp only [List.cons_append, List.nil_append, closeAt]
      rw [if_neg ht, if_neg hx]
      simp [closeAt]
    | cons y X'' =>
      have ht : ¬ (x = c1 ∧ y = c2) := by
        intro hh
        simp [adjPair, hh.1, hh.2] at hadj
      have hrec := ih hnl.2 (adjPair_tail c1 c2 x ((y :: X'') ++ [c1]) hadj)
      simp only [List.cons_append, closeAt, List.append_eq] at hrec ⊢
      rw [if_neg ht, if_neg hx, hrec]
      rfl

/-- A found close fits inside the scanned list. -/
theorem closeAt_le (c1 c2 : Char) : ∀ (t : List Char) (k : Nat),
    closeAt c1 c2 t = some k → k + 2 ≤ t.length := by
  intro t
  induction t with
  | nil => intro k h; simp [closeAt] at h
  | cons a t' ih =>
    intro k h
    cases t' with
    | nil => simp [closeAt] at h
    | cons b t'' =>
      simp only [closeAt] at h
      by_cases h1 : a = c1 ∧ b = c2
      · rw [if_pos h1] at h
        cases h
        simp
      · rw [if_neg h1] at h
        by_cases h2 : a = '\n'
        · rw [if_pos h2] at h; cases h
        · rw [if_neg h2] at h
          match hc : closeAt c1 c2 (b :: t'') with
          | none => rw [hc] at h; cases h
          | some k' =>
            rw [hc] at h
            simp at h
            have hk := ih k' hc
            simp only [List.length_cons] at hk ⊢
            omega

/-- Empty input is returned unchanged for any fuel. -/
theorem subPairFuel_nil (o1 o2 c1 c2 : Char) (f : List Char → List Char) :
    ∀ fuel, subPairFuel o1 o2 c1 c2 f fuel [] = [] := by
  intro fuel
  cases fuel <;> simp [subPairFuel]

/-- A single character is returned unchanged for any fuel. -/
theorem subPairFuel_single (o1 o2 c1 c2 : Char) (f : List Char → List Char) :
    ∀ fuel c, subPairFuel o1 o2 c1 c2 f fuel [c] = [c] := by
  intro fuel c
  cases fuel <;> simp [subPairFuel]

/-- The fuel does not matter once it reaches the list length. -/
theorem subPairFuel_irrel (o1 o2 c1 c2 : Char) (f : List Char → List Char) :
    ∀ (f1 : Nat) (s : List Char) (f2 : Nat), s.length ≤ f1 → s.length ≤ f2 →
      subPairFuel o1 o2 c1 c2 f f1 s = subPairFuel o1 o2 c1 c2 f f2 s := by
  intro f1
  induction f1 with
  | zero =>
    intro s f2 h1 _
    have : s = [] := List.eq_nil_of_length_eq_zero (by omega)
    subst this
    rw [subPairFuel_nil, subPairFuel_nil]
  | succ g1 ih =>
    intro s f2 h1 h2
    match s with
    | [] => rw [subPairFuel_nil, subPairFuel_nil]
    | [c] => rw [subPairFuel_single, subPairFuel_single]
    | a :: b :: t =>
      simp only [List.length_cons] at h1 h2
      match f2 with
      | 0 => exact absurd h2 (by omega)
      | g2 + 1 =>
        simp only [subPairFuel]
        by_cases hop : a = o1 ∧ b = o2
        · rw [if_pos hop, if_pos hop]
          match hc : closeAt c1 c2 t with
          | some k =>
            have hk := closeAt_le c1 c2 t k hc
            have hd : (t.drop (k + 2)).length ≤ g1 := by
              simp only [List.length_drop]; omega
            have hd2 : (t.drop (k + 2)).length ≤ g2 := by
              simp only [List.length_drop]; omega
            simp only [ih (t.drop (k + 2)) g2 hd hd2]
          | none =>
            simp only [ih (b :: t) g2 (by simp; omega) (by simp; omega)]
        · rw [if_neg hop, if_neg hop]
          rw [ih (b :: t) g2 (by simp; omega) (by simp; omega)]

/-- A substitution pass at an opening delimiter whose enclosed text is
newline-free and closes first at the marked spot: replace and continue
after the closing delimiter. -/
theorem subPairFuel_cons2 (o1 o2 c1 c2 : Char) (f : List Char → List Char) (m : Nat)
    (a b : Char) (t : List Char) :
    subPairFuel o1 o2 c1 c2 f (m + 1) (a :: b :: t) =
      if a = o1 ∧ b = o2 then
        match closeAt c1 c2 t with
        | some k => f (t.take k) ++ subPairFuel o1 o2 c1 c2 f m (t.drop (k + 2))
        | none => a :: subPairFuel o1 o2 c1 c2 f m (b :: t)
      else a :: subPairFuel o1 o2 c1 c2 f m (b :: t) := rfl

/-- A substitution pass at an opening delimiter whose enclosed text is
newline-free and closes first at the marked spot: replace and continue
after the closing delimiter. -/
theorem subPair2_head (o1 o2 c1 c2 : Char) (f : List Char → List Char) (X r : List Char)
    (hnl : '\n' ∉ X) (hadj : adjPair c1 c2 (X ++ [c1]) = false) :
    subPair2 o1 o2 c1 c2 f (o1 :: o2 :: (X ++ c1 :: c2 :: r)) =
      f X ++ subPair2 o1 o2 c1 c2 f r := by
  have hdrop : (X ++ c1 :: c2 :: r).drop (X.length + 2) = r := by
    rw [show X ++ c1 :: c2 :: r = (X ++ [c1, c2]) ++ r by simp]
    rw [show X.length + 2 = (X ++ [c1, c2]).length by simp]
    exact List.drop_left _ _
  have htake : (X ++ c1 :: c2 :: r).take X.length = X := List.take_left _ _
  have hlen : (o1 :: o2 :: (X ++ c1 :: c2 :: r)).length = (X.length + r.length + 3) + 1 := by
    simp only [List.length_cons, List.length_append]
    omega
  unfold subPair2
  rw [hlen, subPairFuel_cons2, if_pos ⟨rfl, rfl⟩, closeAt_exact c1 c2 r X hnl hadj]
  simp only [htake, hdrop]
  rw [subPairFuel_irrel o1 o2 c1 c2 f (X.length + r.length + 3) r r.length (by omega)
    (Nat.le_refl _)]

/-- A pass that finds no delimiter pair returns its input unchanged, for
any fuel. -/
theorem subPairFuel_id (o1 o2 c1 c2 : Char) (f : List Char → List Char) :
    ∀ (fuel : Nat) (s : List Char),
      hasDelimPair o1 o2 c1 c2 s = false → subPairFuel o1 o2 c1 c2 f fuel s = s := by
  intro fuel
  induction fuel with
  | zero => intro s _; rfl
  | succ m ih =>
    intro s hnm
    match s with
    | [] => rfl
    | [c] => rfl
    | a :: b :: t =>
      simp only [hasDelimPair, Bool.or_eq_false_iff] at hnm
      obtain ⟨hhead, htail⟩ := hnm
      simp only [subPairFuel]
      by_cases hop : a = o1 ∧ b = o2
      · have hnone : closeAt c1 c2 t = none := by
          simp [hop.1, hop.2] at hhead
          exact hhead
        rw [if_pos hop, hnone, ih (b :: t) htail]
      · rw [if_neg hop, ih (b :: t) htail]

/-- A substitution that finds no delimiter pair is a no-op. -/
theorem subPair2_id (o1 o2 c1 c2 : Char) (f : List Char → List Char) (s : List Char)
    (h : hasDelimPair o1 o2 c1 c2 s = false) : subPair2 o1 o2 c1 c2 f s = s :=
  subPairFuel_id o1 o2 c1 c2 f s.length s h

/-- C5: `process_text` is the fixed sequence bold, emphasis, digest, strip,
each pass rescanning the previous pass's output; each pass substitutes its
shortest-match delimited spans (`**X**` to `<b>X</b>`, `__X__` to
`<em>X</em>`, `[[X]]` to the lowercase-hex MD5 digest of the UTF-8 bytes
of `X`, `((X))` to `X` without `c`/`C`) and continues after each
replacement; a pass finding no delimiter pair changes nothing. -/
theorem c5_inline_translator :
    (∀ text : String, process_text text = stripSub (md5Sub (emSub (boldSub text))))
    ∧ (∀ X r : List Char, '\n' ∉ X → adjPair '*' '*' (X ++ ['*']) = false →
        subPair2 '*' '*' '*' '*' bWrap ('*' :: '*' :: (X ++ '*' :: '*' :: r)) =
          "<b>".data ++ X ++ "</b>".data ++ subPair2 '*' '*' '*' '*' bWrap r)
    ∧ (∀ X r : List Char, '\n' ∉ X → adjPair '_' '_' (X ++ ['_']) = false →
        subPair2 '_' '_' '_' '_' emWrap ('_' :: '_' :: (X ++ '_' :: '_' :: r)) =
          "<em>".data ++ X ++ "</em>".data ++ subPair2 '_' '_' '_' '_' emWrap r)
    ∧ (∀ X r : List Char, '\n' ∉ X → adjPair ']' ']' (X ++ [']']) = false →
        subPair2 '[' '[' ']' ']' md5Wrap ('[' :: '[' :: (X ++ ']' :: ']' :: r)) =
          (md5hex (utf8Encode X)).data ++ subPair2 '[' '[' ']' ']' md5Wrap r)
    ∧ (∀ X r : List Char, '\n' ∉ X → adjPair ')' ')' (X ++ [')']) = false →
        subPair2 '(' '(' ')' ')' stripWrap ('(' :: '(' :: (X ++ ')' :: ')' :: r)) =
          X.filter stripKeep ++ subPair2 '(' '(' ')' ')' stripWrap r)
    ∧ (∀ (o1 o2 c1 c2 : Char) (f : List Char → List Char) (s : List Char),
        hasDelimPair o1 o2 c1 c2 s = false → subPair2 o1 o2 c1 c2 f s = s) := by
  refine ⟨fun _ => rfl, ?_, ?_, ?_, ?_, subPair2_id⟩
  · intro X r hnl hadj
    simpa [bWrap, List.append_assoc] using subPair2_head '*' '*' '*' '*' bWrap X r hnl hadj
  · intro X r hnl hadj
    simpa [emWrap, List.append_assoc] using subPair2_head '_' '_' '_' '_' emWrap X r hnl hadj
  · intro X r hnl hadj
    simpa [md5Wrap, List.append_assoc] using subPair2_head '[' '[' ']' ']' md5Wrap X r hnl hadj
  · intro X r hnl hadj
    simpa [stripWrap, List.append_assoc] using subPair2_head '(' '(' ')' ')' stripWrap X r hnl hadj

set_option maxRecDepth 8192 in
/-- Witness for C5: a concrete bold substitution through the theorem, and
the full pipeline on `"**x** [[Hello]]"` (the digest of `Hello` is the
fixed 32-hex-character MD5 value). -/
theorem c5_inline_translator_witness :
    subPair2 '*' '*' '*' '*' bWrap ('*' :: '*' :: (("x").data ++ '*' :: '*' :: [])) =
      "<b>".data ++ ("x").data ++ "</b>".data ++ subPair2 '*' '*' '*' '*' bWrap []
    ∧ process_text ("**x** [[Hello]]") = "<b>x</b> 8b1a9953c4611296a827abf8c47804d7" :=
  ⟨c5_inline_translator.2.1 (("x").data) [] (by decide) (by decide), by rfl⟩

/-- C10: on any string in which none of the four patterns finds a
delimiter pair — in particular on already-converted HTML output — the
inline translator is the identity, so a second application after the
initial transformation changes nothing. -/
theorem c10_translator_identity : ∀ s : String,
    hasDelimPair '*' '*' '*' '*' s.data = false →
    hasDelimPair '_' '_' '_' '_' s.data = false →
    hasDelimPair '[' '[' ']' ']' s.data = false →
    hasDelimPair '(' '(' ')' ')' s.data = false →
    process_text s = s := by
  intro s h1 h2 h3 h4
  have e1 : boldSub s = s := by
    rw [show boldSub s = String.mk (subPair2 '*' '*' '*' '*' bWrap s.data) from rfl,
      subPair2_id _ _ _ _ _ _ h1]
  have e2 : emSub s = s := by
    rw [show emSub s = String.mk (subPair2 '_' '_' '_' '_' emWrap s.data) from rfl,
      subPair2_id _ _ _ _ _ _ h2]
  have e3 : md5Sub s = s := by
    rw [show md5Sub s = String.mk (subPair2 '[' '[' ']' ']' md5Wrap s.data) from rfl,
      subPair2_id _ _ _ _ _ _ h3]
  have e4 : stripSub s = s := by
    rw [show stripSub s = String.mk (subPair2 '(' '(' ')' ')' stripWrap s.data) from rfl,
      subPair2_id _ _ _ _ _ _ h4]
  show stripSub (md5Sub (emSub (boldSub s))) = s
  rw [e1, e2, e3, e4]

/-- Witness for C10 on a concrete marker-free HTML fragment. -/
theorem c10_translator_identity_witness :
    process_text ("<b>Hello</b>") = "<b>Hello</b>" :=
  c10_translator_identity ("<b>Hello</b>") (by decide) (by decide) (by decide) (by decide)
